import Mathlib

/-!
Shallow embedding of `fleaker/config.py` (the `MultiStageConfigurableApp`
mixin) and verification of the specification's claims about it.

The configuration store (`flask.Config`, a `dict` subclass) is modelled as an
association list `List (String × α)` with dict update semantics (`storeSet`).
The value type `α` is kept abstract, modelling arbitrary Python values.
Fallible operations (file loading, module import, the `TypeError` raised on an
unsupported source, the `IndexError` on `item[0]` for an empty string) are
modelled with `Except` / an `Option CfgError` component.  Flask's
`Config.from_mapping` / `Config.from_object` (the dependency the code builds
on, per the module's own docstring: "Just like Flask's standard configuration,
only uppercased keys will be loaded into the config") are embedded as
`config_from_mapping` / `config_from_object`: iterate the key/value pairs
(resp. attributes) and assign exactly those whose key satisfies Python's
`str.isupper`.
-/

namespace Fleaker

/-- Python `str.isupper` (ASCII model): at least one cased character, and
every cased character is uppercase.  Letters are the cased characters;
digits, underscores etc. are uncased and ignored by the test. -/
def pyIsupper (s : String) : Bool :=
  s.data.any (fun c => c.isAlpha) && s.data.all (fun c => !c.isAlpha || c.isUpper)

/-- Python `str.rfind` on a list of characters: index of the last occurrence
of `c`, or `-1` when absent. -/
def pyRfind (l : List Char) (c : Char) : Int :=
  (List.range l.length).foldl
    (fun acc i => if l.get? i = some c then (i : Int) else acc) (-1)

/-- `os.path.splitext` (POSIX `posixpath.splitext`): split off the extension
at the last dot, provided that dot comes after the last path separator and
the basename has a non-dot character before it (so `.secrets` has no
extension). -/
def splitext (p : String) : String × String :=
  let l := p.data
  let sepIndex := pyRfind l '/'
  let dotIndex := pyRfind l '.'
  if decide (sepIndex < dotIndex) &&
      (List.range l.length).any (fun i =>
        decide (sepIndex < (i : Int)) && decide ((i : Int) < dotIndex) &&
          !(l.get? i == some '.')) then
    (⟨l.take dotIndex.toNat⟩, ⟨l.drop dotIndex.toNat⟩)
  else
    (p, "")

variable {α : Type}

/-- Dict assignment `self[key] = value`: replace the entry when the key is
present, append otherwise. -/
def storeSet (st : List (String × α)) (k : String) (v : α) : List (String × α) :=
  if st.any (fun p => p.1 == k) then
    st.map (fun p => if p.1 == k then (k, v) else p)
  else
    st ++ [(k, v)]

/-- Dict lookup `store.get(key)`. -/
def storeGet (st : List (String × α)) (k : String) : Option α :=
  (st.find? (fun p => p.1 == k)).map Prod.snd

/-- `flask.Config.from_mapping`: for each `(key, value)` pair of the mapping,
assign it when `key.isupper()`, skip it otherwise. -/
def config_from_mapping (st : List (String × α)) (item : List (String × α)) :
    List (String × α) :=
  item.foldl (fun acc p => if pyIsupper p.1 then storeSet acc p.1 p.2 else acc) st

/-- `flask.Config.from_object`: for each attribute `key` of the object,
assign `getattr(obj, key)` when `key.isupper()`.  Same admission filter as
`from_mapping`, over the object's attribute list. -/
def config_from_object (st : List (String × α)) (attrs : List (String × α)) :
    List (String × α) :=
  attrs.foldl (fun acc p => if pyIsupper p.1 then storeSet acc p.1 p.2 else acc) st

/-- The host application object: `self.import_name` and `self.config`. -/
structure App (α : Type) where
  importName : String
  config : List (String × α)
deriving Repr, DecidableEq

/-- Errors a `configure` call can raise. -/
inductive CfgError where
  /-- The `TypeError` raised for an unsupported source; carries the message. -/
  | typeError (msg : String)
  /-- An error propagated unchanged from a file loader (`from_json` /
  `from_pyfile`): missing file, parse failure, ... -/
  | ioError (path : String)
  /-- `ImportError` propagated from `importlib.import_module`. -/
  | importError (path : String)
  /-- `IndexError` from `item[0]` on an empty string. -/
  | indexError
deriving Repr, DecidableEq

/-- The value a Python method call evaluates to: `None` (no return statement)
or the host object `self`. -/
inductive PyRet where
  | none
  | self
deriving Repr, DecidableEq

/-- A configuration source, by the shape `configure` dispatches on:
a `str`; a module or uninstantiated class (`types.ModuleType` / `type`),
carried as its attribute list; an object exposing `.items()`, carried as its
key/value pairs; or anything else, carried as its `str()` form for the
`TypeError` message. -/
inductive Source (α : Type) where
  | str (s : String)
  | obj (attrs : List (String × α))
  | mapping (items : List (String × α))
  | other (pyStr : String)

/-- The external world the loaders consult: JSON files (top-level object),
Python/cfg files (the uppercase-relevant resulting names), the import system
(`importlib.import_module path package`, yielding a module's attributes), and
the process environment `os.environ`. -/
structure Env (α : Type) where
  jsonFiles : String → Option (List (String × α))
  pyFiles : String → Option (List (String × α))
  importMod : String → Option String → Option (List (String × α))
  environ : List (String × α)

/-- The message of the `TypeError` raised by `configure`:
`"Could not determine a valid type for this configuration object: `{}`!".format(item)`. -/
def typeErrorMsg (pyStr : String) : String :=
  "Could not determine a valid type for this configuration object: `" ++ pyStr ++ "`!"

/-- `_configure_from_json`: `self.config.from_json(item)` — load the JSON
file and feed the resulting object through `from_mapping`; file or parse
errors propagate. Returns `self`. -/
def _configure_from_json (app : App α) (env : Env α) (item : String) :
    Except CfgError (App α) :=
  match env.jsonFiles item with
  | some obj => .ok { app with config := config_from_mapping app.config obj }
  | none => .error (.ioError item)

/-- `_configure_from_pyfile`: `self.config.from_pyfile(item)` — execute the
`.py` / `.cfg` file and feed the resulting names through `from_object`;
errors propagate. Returns `self`. -/
def _configure_from_pyfile (app : App α) (env : Env α) (item : String) :
    Except CfgError (App α) :=
  match env.pyFiles item with
  | some attrs => .ok { app with config := config_from_object app.config attrs }
  | none => .error (.ioError item)

/-- `_configure_from_module`: `package = None; if item[0] == '.': package =
self.import_name`, then `importlib.import_module(item, package=package)` and
`self.config.from_object(obj)`.  On the empty string, `item[0]` raises
`IndexError`. Returns `self`. -/
def _configure_from_module (app : App α) (env : Env α) (item : String) :
    Except CfgError (App α) :=
  match item.data with
  | [] => .error .indexError
  | c :: _ =>
    let package := if c = '.' then some app.importName else none
    match env.importMod item package with
    | some attrs => .ok { app with config := config_from_object app.config attrs }
    | none => .error (.importError item)

/-- `_configure_from_mapping`: default the whitelist to the store's current
keys when none is given; when `whitelist_keys` is set, keep only the
mapping's entries whose key is in the whitelist; then
`self.config.from_mapping(item)`. Returns `self`. -/
def _configure_from_mapping (app : App α) (item : List (String × α))
    (whitelist_keys : Bool) (whitelist : Option (List String)) : App α :=
  let wl := match whitelist with
    | none => app.config.map Prod.fst
    | some w => w
  let item := if whitelist_keys then item.filter (fun p => wl.contains p.1) else item
  { app with config := config_from_mapping app.config item }

/-- `_configure_from_object`: `self.config.from_object(item)`. Returns `self`. -/
def _configure_from_object (app : App α) (attrs : List (String × α)) : App α :=
  { app with config := config_from_object app.config attrs }

/-- One iteration of `configure`'s `for item in args` loop: the source-type
dispatch.  A string is split with `splitext` and routed on its extension; a
module or class goes to `_configure_from_object`; anything with `.items()`
goes to `_configure_from_mapping`; anything else raises the `TypeError`. -/
def configureItem (app : App α) (env : Env α) (wkfm : Bool)
    (wl : Option (List String)) : Source α → Except CfgError (App α)
  | .str item =>
    let ext := (splitext item).2
    if ext == ".json" then
      _configure_from_json app env item
    else if ext == ".cfg" || ext == ".py" then
      _configure_from_pyfile app env item
    else
      _configure_from_module app env item
  | .obj attrs => .ok (_configure_from_object app attrs)
  | .mapping item => .ok (_configure_from_mapping app item wkfm wl)
  | .other pyStr => .error (.typeError (typeErrorMsg pyStr))

/-- `configure`'s loop over its positional sources.  The first component is
the state of the app when the loop finishes or the exception is raised
(mutations from sources already processed persist); the second is the raised
exception, if any (processing stops at the first failing source, which
contributes nothing). -/
def configureLoop (env : Env α) (wkfm : Bool) (wl : Option (List String)) :
    App α → List (Source α) → App α × Option CfgError
  | app, [] => (app, none)
  | app, item :: rest =>
    match configureItem app env wkfm wl item with
    | .ok app' => configureLoop env wkfm wl app' rest
    | .error e => (app, some e)

/-- `configure(self, *args, **kwargs)` with
`whitelist_keys_from_mappings` and `whitelist` extracted from `kwargs`.
The method body is the loop; it has no `return` statement, so on normal
completion the call evaluates to `None` — the `PyRet` component. -/
def configure (app : App α) (env : Env α) (wkfm : Bool) (wl : Option (List String))
    (sources : List (Source α)) : App α × Option CfgError × PyRet :=
  let r := configureLoop env wkfm wl app sources
  (r.1, r.2, PyRet.none)

/-- `configure_from_environment(self, whitelist_keys=False, whitelist=None)`:
`self._configure_from_mapping(os.environ, ...)` and `return self`. -/
def configure_from_environment (app : App α) (env : Env α) (whitelist_keys : Bool)
    (whitelist : Option (List String)) : App α × PyRet :=
  (_configure_from_mapping app env.environ whitelist_keys whitelist, PyRet.self)

/-- All keys of a store satisfy Python's `isupper`. -/
def upperKeys (st : List (String × α)) : Bool :=
  (st.map Prod.fst).all pyIsupper

/-- Last value a mapping's pair list associates to `k` (dict semantics:
a later pair for the same key wins), `none` when the key is absent. -/
def lookupLast : List (String × α) → String → Option α
  | [], _ => none
  | p :: rest, k =>
    match lookupLast rest k with
    | some v => some v
    | none => if p.1 == k then some p.2 else none

/-- Value the sequence of mapping sources as a whole associates to `k`:
the value from the last source defining `k`, `none` when no source does. -/
def sourcesLookup : List (List (String × α)) → String → Option α
  | [], _ => none
  | m :: rest, k =>
    match sourcesLookup rest k with
    | some v => some v
    | none => lookupLast m k

/-- A sample application used to instantiate witnesses. -/
def appA : App Int := { importName := "myapp", config := [("A", 1)] }

/-- A sample external world with no files and no modules. -/
def envEmpty : Env Int :=
  { jsonFiles := fun _ => none
    pyFiles := fun _ => none
    importMod := fun _ _ => none
    environ := [] }

/-- A sample application with an empty configuration store. -/
def appEmpty : App Int := { importName := "app", config := [] }

/-- A sample external world with one JSON file, one cfg file, one importable
module and a small process environment; each source mixes uppercase and
non-uppercase names. -/
def envW : Env Int :=
  { jsonFiles := fun p => if p = "s.json" then some [("f", 6), ("G", 7)] else none
    pyFiles := fun p => if p = "c.cfg" then some [("h", 8), ("I", 9)] else none
    importMod := fun p pkg =>
      if p = "mod" ∧ pkg = none then some [("j", 10), ("K", 11)]
      else if p = ".settings" ∧ pkg = some "myapp" then some [("A", 1), ("b", 2)]
      else none
    environ := [("l", 12), ("M", 13)] }

/-- `st.any (p.1 == k)` is key membership. -/
theorem anyKey_iff (st : List (String × α)) (k : String) :
    st.any (fun p => p.1 == k) = true ↔ k ∈ st.map Prod.fst := by
  rw [List.any_eq_true]
  constructor
  · rintro ⟨p, hp, he⟩
    exact List.mem_map.mpr ⟨p, hp, beq_iff_eq.mp he⟩
  · intro hm
    obtain ⟨p, hp, rfl⟩ := List.mem_map.mp hm
    exact ⟨p, hp, by simp⟩

/-- The key list after a dict assignment: unchanged when the key was
present, the key appended otherwise. -/
theorem storeSet_keys (st : List (String × α)) (k : String) (v : α) :
    (storeSet st k v).map Prod.fst =
      if st.any (fun p => p.1 == k) then st.map Prod.fst
      else st.map Prod.fst ++ [k] := by
  unfold storeSet
  split
  · rw [List.map_map]
    exact List.map_congr_left (fun p _ => by
      by_cases hp : p.1 = k <;> simp [hp])
  · simp

/-- Membership in the key list after a dict assignment. -/
theorem mem_keys_storeSet (st : List (String × α)) (k k' : String) (v : α) :
    k' ∈ (storeSet st k v).map Prod.fst ↔ k' ∈ st.map Prod.fst ∨ k' = k := by
  rw [storeSet_keys]
  split
  · rename_i h
    rw [anyKey_iff] at h
    constructor
    · exact Or.inl
    · rintro (hm | rfl) <;> [exact hm; exact h]
  · simp

/-- Looking up the key just assigned yields the assigned value. -/
theorem storeGet_storeSet_self (st : List (String × α)) (k : String) (v : α) :
    storeGet (storeSet st k v) k = some v := by
  unfold storeGet storeSet
  split
  · rename_i h
    induction st with
    | nil => simp at h
    | cons p rest ih =>
      by_cases hp : p.1 = k
      · simp [List.find?, hp]
      · have hp' : (p.1 == k) = false := by simp [hp]
        simp only [List.any_cons, hp', Bool.false_or] at h
        simpa [List.find?, hp'] using ih h
  · rename_i h
    rw [List.find?_append]
    have : st.find? (fun p => p.1 == k) = none := by
      rw [List.find?_eq_none]
      intro p hp hk
      exact h (List.any_eq_true.mpr ⟨p, hp, hk⟩)
    simp [this, List.find?]

/-- `find?` for key `k'` is unaffected by rewriting the entries whose key is
a different `k`. -/
theorem find?_map_setEntry_ne (st : List (String × α)) (k k' : String) (v : α)
    (h : k' ≠ k) :
    (st.map (fun p => if p.1 == k then (k, v) else p)).find? (fun p => p.1 == k')
      = st.find? (fun p => p.1 == k') := by
  induction st with
  | nil => rfl
  | cons p rest ih =>
    by_cases hp : p.1 = k
    · have h1 : (p.1 == k) = true := beq_iff_eq.mpr hp
      have h2 : (k == k') = false := beq_eq_false_iff_ne.mpr (Ne.symm h)
      have h3 : (p.1 == k') = false := by rw [hp]; exact h2
      rw [List.map_cons, if_pos h1, List.find?_cons_of_neg _ (by simp [h2]),
        List.find?_cons_of_neg _ (by simp [h3])]
      exact ih
    · have h1 : (p.1 == k) = false := beq_eq_false_iff_ne.mpr hp
      rw [List.map_cons, if_neg (by simp [h1])]
      cases hfind : (p.1 == k') with
      | true =>
        rw [List.find?_cons_of_pos _ (by simp [hfind]),
          List.find?_cons_of_pos _ (by simp [hfind])]
      | false =>
        rw [List.find?_cons_of_neg _ (by simp [hfind]),
          List.find?_cons_of_neg _ (by simp [hfind])]
        exact ih

/-- Looking up a different key is unaffected by an assignment. -/
theorem storeGet_storeSet_ne (st : List (String × α)) (k k' : String) (v : α)
    (h : k' ≠ k) : storeGet (storeSet st k v) k' = storeGet st k' := by
  have hkk : (k == k') = false := beq_eq_false_iff_ne.mpr (Ne.symm h)
  unfold storeGet storeSet
  split
  · rw [find?_map_setEntry_ne st k k' v h]
  · rw [List.find?_append]
    have h0 : [(k, v)].find? (fun p => p.1 == k') = none := by
      simp [List.find?, hkk]
    simp [h0]

/-- Flask's `from_object` runs the same uppercase-filtered assignment loop as
`from_mapping`. -/
theorem config_from_object_eq :
    @config_from_object α = @config_from_mapping α := rfl

/-- Unfolding one step of the `from_mapping` assignment loop. -/
theorem config_from_mapping_cons (st : List (String × α)) (p : String × α)
    (rest : List (String × α)) :
    config_from_mapping st (p :: rest)
      = config_from_mapping (if pyIsupper p.1 then storeSet st p.1 p.2 else st) rest := rfl

/-- A key is in the store after `from_mapping` exactly when it was there
before, or it is an `isupper` key of the merged mapping. -/
theorem mem_keys_config_from_mapping (m : List (String × α)) (st : List (String × α))
    (k : String) :
    k ∈ (config_from_mapping st m).map Prod.fst ↔
      k ∈ st.map Prod.fst ∨ (pyIsupper k = true ∧ k ∈ m.map Prod.fst) := by
  induction m generalizing st with
  | nil => simp [config_from_mapping]
  | cons p rest ih =>
    rw [config_from_mapping_cons, ih]
    by_cases hup : pyIsupper p.1 = true
    · rw [if_pos hup, mem_keys_storeSet]
      have hk : k = p.1 → pyIsupper k = true := fun h => h ▸ hup
      simp only [List.map_cons, List.mem_cons]
      tauto
    · rw [if_neg hup]
      have hk : k = p.1 → ¬ pyIsupper k = true := fun h => h ▸ hup
      simp only [List.map_cons, List.mem_cons]
      tauto

/-- Looking up an `isupper` key after `from_mapping`: the mapping's last
value for that key when it has one, the old store value otherwise. -/
theorem storeGet_config_from_mapping_upper (m : List (String × α))
    (st : List (String × α)) (k : String) (h : pyIsupper k = true) :
    storeGet (config_from_mapping st m) k
      = match lookupLast m k with
        | some v => some v
        | none => storeGet st k := by
  induction m generalizing st with
  | nil => simp [config_from_mapping, lookupLast]
  | cons p rest ih =>
    rw [config_from_mapping_cons, ih]
    show _ = (match lookupLast (p :: rest) k with
      | some v => some v
      | none => storeGet st k)
    rw [lookupLast]
    cases hl : lookupLast rest k with
    | some v => rfl
    | none =>
      by_cases hp : p.1 = k
      · rw [if_pos (hp ▸ h), hp, storeGet_storeSet_self]
        simp
      · have hb : (p.1 == k) = false := beq_eq_false_iff_ne.mpr hp
        rw [hb]
        by_cases hq : pyIsupper p.1 = true
        · rw [if_pos hq, storeGet_storeSet_ne st p.1 k p.2 (fun e => hp e.symm)]
          simp
        · rw [if_neg hq]
          simp

/-- Looking up a non-`isupper` key is unaffected by `from_mapping`: such keys
are never assigned. -/
theorem storeGet_config_from_mapping_notupper (m : List (String × α))
    (st : List (String × α)) (k : String) (h : pyIsupper k = false) :
    storeGet (config_from_mapping st m) k = storeGet st k := by
  induction m generalizing st with
  | nil => simp [config_from_mapping]
  | cons p rest ih =>
    rw [config_from_mapping_cons, ih]
    by_cases hp : p.1 = k
    · rw [if_neg (by rw [hp, h]; exact Bool.false_ne_true)]
    · by_cases hq : pyIsupper p.1 = true
      · rw [if_pos hq, storeGet_storeSet_ne st p.1 k p.2 (fun e => hp e.symm)]
      · rw [if_neg hq]

/-- `from_mapping` preserves the all-uppercase-keys invariant: the only keys
it assigns satisfy `isupper`. -/
theorem upperKeys_config_from_mapping (m : List (String × α))
    (st : List (String × α)) (h : upperKeys st = true) :
    upperKeys (config_from_mapping st m) = true := by
  rw [upperKeys, List.all_eq_true] at h ⊢
  intro k hk
  rcases (mem_keys_config_from_mapping m st k).mp hk with hold | ⟨hup, _⟩
  · exact h k hold
  · exact hup

/-- Key membership in a mapping filtered by whitelist membership. -/
theorem mem_keys_filter_contains (m : List (String × α)) (wl : List String) (k : String) :
    k ∈ (m.filter (fun p => wl.contains p.1)).map Prod.fst ↔
      k ∈ m.map Prod.fst ∧ k ∈ wl := by
  constructor
  · intro h
    obtain ⟨p, hp, rfl⟩ := List.mem_map.mp h
    obtain ⟨hm, hc⟩ := List.mem_filter.mp hp
    exact ⟨List.mem_map.mpr ⟨p, hm, rfl⟩, by simpa using hc⟩
  · rintro ⟨hm, hw⟩
    obtain ⟨p, hp, rfl⟩ := List.mem_map.mp hm
    exact List.mem_map.mpr ⟨p, List.mem_filter.mpr ⟨hp, by simpa using hw⟩, rfl⟩

/-- With `whitelist_keys=False` the mapping is merged unfiltered, whatever
the whitelist argument. -/
theorem _configure_from_mapping_false (app : App α) (m : List (String × α))
    (wl : Option (List String)) :
    _configure_from_mapping app m false wl
      = { app with config := config_from_mapping app.config m } := rfl

/-- With `whitelist_keys=True` and no explicit whitelist, the store's current
keys are the whitelist. -/
theorem _configure_from_mapping_true_none (app : App α) (m : List (String × α)) :
    _configure_from_mapping app m true none
      = { app with
          config := config_from_mapping app.config
            (m.filter (fun p => (app.config.map Prod.fst).contains p.1)) } := rfl

/-- With `whitelist_keys=True` and an explicit whitelist, that list is the
whitelist, verbatim. -/
theorem _configure_from_mapping_true_some (app : App α) (m : List (String × α))
    (wl : List String) :
    _configure_from_mapping app m true (some wl)
      = { app with
          config := config_from_mapping app.config
            (m.filter (fun p => wl.contains p.1)) } := rfl

/-- Unfolding one step of the `configure` loop. -/
theorem configureLoop_cons (env : Env α) (wkfm : Bool) (wl : Option (List String))
    (app : App α) (s : Source α) (rest : List (Source α)) :
    configureLoop env wkfm wl app (s :: rest)
      = match configureItem app env wkfm wl s with
        | .ok app' => configureLoop env wkfm wl app' rest
        | .error e => (app, some e) := rfl

/-- Every successfully processed source preserves the all-uppercase-keys
invariant: every admission path runs through the `isupper` filter. -/
theorem upperKeys_configureItem (app : App α) (env : Env α) (wkfm : Bool)
    (wl : Option (List String)) (s : Source α) (app' : App α)
    (h : upperKeys app.config = true)
    (hok : configureItem app env wkfm wl s = .ok app') :
    upperKeys app'.config = true := by
  cases s with
  | str item =>
    dsimp only [configureItem] at hok
    split at hok
    · unfold _configure_from_json at hok
      cases hj : env.jsonFiles item <;> rw [hj] at hok
      · cases hok
      · injection hok with he
        subst he
        exact upperKeys_config_from_mapping _ _ h
    · split at hok
      · unfold _configure_from_pyfile at hok
        cases hj : env.pyFiles item <;> rw [hj] at hok
        · cases hok
        · injection hok with he
          subst he
          show upperKeys (config_from_object app.config _) = true
          rw [config_from_object_eq]
          exact upperKeys_config_from_mapping _ _ h
      · unfold _configure_from_module at hok
        cases hd : item.data with
        | nil =>
          rw [hd] at hok
          cases hok
        | cons c cs =>
          rw [hd] at hok
          have hok' : (match env.importMod item
                (if c = '.' then some app.importName else none) with
              | some attrs =>
                  Except.ok { app with config := config_from_object app.config attrs }
              | none => Except.error (CfgError.importError item))
              = Except.ok app' := hok
          cases hi : env.importMod item (if c = '.' then some app.importName else none) <;>
            rw [hi] at hok'
          · cases hok'
          · injection hok' with he
            subst he
            show upperKeys (config_from_object app.config _) = true
            rw [config_from_object_eq]
            exact upperKeys_config_from_mapping _ _ h
  | obj attrs =>
    injection hok with he
    subst he
    show upperKeys (config_from_object app.config attrs) = true
    rw [config_from_object_eq]
    exact upperKeys_config_from_mapping _ _ h
  | mapping item =>
    injection hok with he
    subst he
    show upperKeys (config_from_mapping app.config _) = true
    exact upperKeys_config_from_mapping _ _ h
  | other r => cases hok

/-- The `configure` loop preserves the all-uppercase-keys invariant, whether
it completes or stops at a failing source. -/
theorem upperKeys_configureLoop (env : Env α) (wkfm : Bool) (wl : Option (List String))
    (srcs : List (Source α)) (app : App α) (h : upperKeys app.config = true) :
    upperKeys ((configureLoop env wkfm wl app srcs).1).config = true := by
  induction srcs generalizing app with
  | nil => exact h
  | cons s rest ih =>
    rw [configureLoop_cons]
    cases hi : configureItem app env wkfm wl s with
    | ok app' => exact ih app' (upperKeys_configureItem app env wkfm wl s app' h hi)
    | error e => exact h

/-- When the first batch of sources raises nothing, the loop over a
concatenation continues from the state the first batch produced. -/
theorem configureLoop_append (env : Env α) (wkfm : Bool) (wl : Option (List String))
    (l1 l2 : List (Source α)) (app : App α)
    (h : (configureLoop env wkfm wl app l1).2 = none) :
    configureLoop env wkfm wl app (l1 ++ l2)
      = configureLoop env wkfm wl (configureLoop env wkfm wl app l1).1 l2 := by
  induction l1 generalizing app with
  | nil => rfl
  | cons s rest ih =>
    rw [configureLoop_cons] at h
    rw [List.cons_append, configureLoop_cons, configureLoop_cons]
    cases hi : configureItem app env wkfm wl s with
    | ok app' =>
      rw [hi] at h
      exact ih app' h
    | error e =>
      rw [hi] at h
      simp at h

/-- The only source shape whose processing raises the `TypeError` is the
unsupported one, and the message carries the offending value. -/
theorem configureItem_typeError (app : App α) (env : Env α) (wkfm : Bool)
    (wl : Option (List String)) (s : Source α) (m : String)
    (h : configureItem app env wkfm wl s = .error (.typeError m)) :
    ∃ r, s = Source.other r ∧ m = typeErrorMsg r := by
  cases s with
  | str item =>
    exfalso
    dsimp only [configureItem] at h
    split at h
    · unfold _configure_from_json at h
      cases hj : env.jsonFiles item <;> rw [hj] at h <;> simp at h
    · split at h
      · unfold _configure_from_pyfile at h
        cases hj : env.pyFiles item <;> rw [hj] at h <;> simp at h
      · unfold _configure_from_module at h
        cases hd : item.data with
        | nil =>
          rw [hd] at h
          simp at h
        | cons c cs =>
          rw [hd] at h
          have h' : (match env.importMod item
                (if c = '.' then some app.importName else none) with
              | some attrs =>
                  Except.ok { app with config := config_from_object app.config attrs }
              | none => Except.error (CfgError.importError item))
              = Except.error (CfgError.typeError m) := h
          cases hi : env.importMod item (if c = '.' then some app.importName else none) <;>
            rw [hi] at h' <;> simp at h'
  | obj attrs => simp [configureItem] at h
  | mapping item => simp [configureItem] at h
  | other r =>
    dsimp only [configureItem] at h
    simp only [Except.error.injEq, CfgError.typeError.injEq] at h
    exact ⟨r, rfl, h.symm⟩

/-- A sequence of mapping sources with whitelisting disabled never raises,
and folds `_configure_from_mapping` over the store. -/
theorem configureLoop_mappings (env : Env α) (ms : List (List (String × α)))
    (app : App α) :
    configureLoop env false none app (ms.map Source.mapping)
      = (ms.foldl (fun a m => _configure_from_mapping a m false none) app, none) := by
  induction ms generalizing app with
  | nil => rfl
  | cons m rest ih =>
    rw [List.map_cons, configureLoop_cons]
    exact ih _

/-- Lookup of an `isupper` key after folding a list of mapping sources into
the store: the last source to define the key wins; when none defines it the
original store value remains. -/
theorem storeGet_foldl_mappings (ms : List (List (String × α))) (app : App α)
    (k : String) (h : pyIsupper k = true) :
    storeGet ((ms.foldl (fun a m => _configure_from_mapping a m false none) app).config) k
      = match sourcesLookup ms k with
        | some v => some v
        | none => storeGet app.config k := by
  induction ms generalizing app with
  | nil => rfl
  | cons m rest ih =>
    rw [List.foldl_cons, ih]
    show _ = (match sourcesLookup (m :: rest) k with
      | some v => some v
      | none => storeGet app.config k)
    rw [sourcesLookup]
    have hst : (_configure_from_mapping app m false none).config
        = config_from_mapping app.config m := rfl
    rw [hst, storeGet_config_from_mapping_upper m app.config k h]
    cases sourcesLookup rest k with
    | some v => rfl
    | none => cases lookupLast m k with
      | some v => rfl
      | none => rfl

/-- `_configure_from_mapping` preserves the all-uppercase-keys invariant for
any whitelist options. -/
theorem upperKeys_configure_from_mapping (app : App α) (m : List (String × α))
    (wk : Bool) (wl : Option (List String)) (h : upperKeys app.config = true) :
    upperKeys (_configure_from_mapping app m wk wl).config = true :=
  upperKeys_config_from_mapping _ _ h

/-- C1: starting from a store whose keys are all uppercase (Python
`str.isupper`), after `configure` processes any sequence of sources — and
after `configure_from_environment` — every key in the store is uppercase;
non-uppercase keys are never admitted from any source kind. -/
theorem c1_uppercase_keys_invariant (app : App α) (env : Env α) (wkfm : Bool)
    (wl : Option (List String)) (srcs : List (Source α))
    (h : upperKeys app.config = true) :
    upperKeys ((configure app env wkfm wl srcs).1).config = true ∧
    upperKeys ((configure_from_environment app env wkfm wl).1).config = true :=
  ⟨upperKeys_configureLoop env wkfm wl srcs app h,
   upperKeys_configure_from_mapping app env.environ wkfm wl h⟩

/-- C1 witness: a concrete run over a JSON file, a cfg file, an imported
module, a class object and a mapping, each containing non-uppercase names,
keeps the store's keys all-uppercase. -/
theorem c1_witness :
    upperKeys appA.config = true ∧
    upperKeys ((configure appA envW false none
      [Source.str "s.json", Source.str "c.cfg", Source.str "mod",
       Source.obj [("d", 4), ("E", 5)], Source.mapping [("f", 6), ("M", 13)]]).1).config
      = true :=
  ⟨by decide,
   (c1_uppercase_keys_invariant appA envW false none
     [Source.str "s.json", Source.str "c.cfg", Source.str "mod",
      Source.obj [("d", 4), ("E", 5)], Source.mapping [("f", 6), ("M", 13)]]
     (by decide)).1⟩

/-- C2: a string source whose `splitext` extension is `.json` is routed to
the JSON loader; `.cfg` or `.py` to the pyfile loader; any other string to
the import-path loader. -/
theorem c2_string_extension_routing (app : App α) (env : Env α) (wkfm : Bool)
    (wl : Option (List String)) (s : String) :
    ((splitext s).2 = ".json" →
      configureItem app env wkfm wl (Source.str s) = _configure_from_json app env s) ∧
    ((splitext s).2 = ".cfg" ∨ (splitext s).2 = ".py" →
      configureItem app env wkfm wl (Source.str s) = _configure_from_pyfile app env s) ∧
    ((splitext s).2 ≠ ".json" ∧ (splitext s).2 ≠ ".cfg" ∧ (splitext s).2 ≠ ".py" →
      configureItem app env wkfm wl (Source.str s) = _configure_from_module app env s) := by
  refine ⟨fun h => ?_, fun h => ?_, fun h => ?_⟩
  · dsimp only [configureItem]
    rw [if_pos (beq_iff_eq.mpr h)]
  · dsimp only [configureItem]
    have h1 : ¬ ((splitext s).2 == ".json") = true := by
      rcases h with h | h <;> rw [h] <;> decide
    have h2 : ((splitext s).2 == ".cfg" || (splitext s).2 == ".py") = true := by
      rcases h with h | h <;> rw [h] <;> decide
    rw [if_neg h1, if_pos h2]
  · dsimp only [configureItem]
    have h1 : ¬ ((splitext s).2 == ".json") = true := by simp [h.1]
    have h2 : ¬ ((splitext s).2 == ".cfg" || (splitext s).2 == ".py") = true := by
      simp [h.2.1, h.2.2]
    rw [if_neg h1, if_neg h2]

/-- C2 witness: `settings.json` routes to the JSON loader, `app.cfg` to the
pyfile loader, `.secrets` (no extension) to the import-path loader. -/
theorem c2_witness :
    ((splitext "settings.json").2 = ".json" ∧
      configureItem appA envW false none (Source.str "settings.json")
        = _configure_from_json appA envW "settings.json") ∧
    ((splitext "app.cfg").2 = ".cfg" ∧
      configureItem appA envW false none (Source.str "app.cfg")
        = _configure_from_pyfile appA envW "app.cfg") ∧
    ((splitext ".secrets").2 ≠ ".json" ∧
      configureItem appA envW false none (Source.str ".secrets")
        = _configure_from_module appA envW ".secrets") :=
  ⟨⟨by decide,
    (c2_string_extension_routing appA envW false none "settings.json").1 (by decide)⟩,
   ⟨by decide,
    (c2_string_extension_routing appA envW false none "app.cfg").2.1 (Or.inl (by decide))⟩,
   ⟨by decide,
    (c2_string_extension_routing appA envW false none ".secrets").2.2 (by decide)⟩⟩

/-- C3: a `configure` call over any sequence of mapping sources with
whitelisting disabled never raises, and for every uppercase key the final
store holds the value from the last source defining it (later sources
override earlier ones); a key defined by any source — colliding or not — is
present. -/
theorem c3_later_mapping_sources_override (app : App α) (env : Env α)
    (ms : List (List (String × α))) (k : String) (h : pyIsupper k = true) :
    (configure app env false none (ms.map Source.mapping)).2.1 = none ∧
    storeGet ((configure app env false none (ms.map Source.mapping)).1).config k
      = match sourcesLookup ms k with
        | some v => some v
        | none => storeGet app.config k := by
  have hloop := configureLoop_mappings env ms app
  constructor
  · show (configureLoop env false none app (ms.map Source.mapping)).2 = none
    rw [hloop]
  · show storeGet ((configureLoop env false none app (ms.map Source.mapping)).1).config k = _
    rw [hloop]
    exact storeGet_foldl_mappings ms app k h

/-- C3 witness: two mapping sources both defining `A`; the later one's value
wins, and the non-colliding `B` would be found the same way. -/
theorem c3_witness :
    pyIsupper "A" = true ∧
    ((configure appEmpty envEmpty false none
        ([[("A", (1 : Int))], [("A", 2), ("B", 3)]].map Source.mapping)).2.1 = none ∧
      storeGet ((configure appEmpty envEmpty false none
          ([[("A", (1 : Int))], [("A", 2), ("B", 3)]].map Source.mapping)).1).config "A"
        = match sourcesLookup [[("A", (1 : Int))], [("A", 2), ("B", 3)]] "A" with
          | some v => some v
          | none => storeGet appEmpty.config "A") :=
  ⟨by decide,
   c3_later_mapping_sources_override appEmpty envEmpty
     [[("A", (1 : Int))], [("A", 2), ("B", 3)]] "A" (by decide)⟩

/-- C4: with `whitelist_keys_from_mappings=True` and no explicit whitelist,
a key of the mapping ends up in the store exactly when it was already there
before the call; the spec's concrete example `{"A": 1}` merged with
`{"A": 2, "B": 3}` yields exactly `{"A": 2}`. -/
theorem c4_default_whitelist_preexisting_keys (app : App α) (env : Env α)
    (m : List (String × α)) (k : String) :
    (configure app env true none [Source.mapping m]).2.1 = none ∧
    (k ∈ m.map Prod.fst →
      (k ∈ ((configure app env true none [Source.mapping m]).1).config.map Prod.fst ↔
        k ∈ app.config.map Prod.fst)) ∧
    configure appA envEmpty true none [Source.mapping [("A", (2 : Int)), ("B", 3)]]
      = ({ importName := "myapp", config := [("A", 2)] }, none, PyRet.none) := by
  refine ⟨rfl, fun _ => ?_, by decide⟩
  have h1 : (configure app env true none [Source.mapping m]).1
      = _configure_from_mapping app m true none := rfl
  rw [h1, _configure_from_mapping_true_none]
  dsimp only
  rw [mem_keys_config_from_mapping, mem_keys_filter_contains]
  constructor
  · rintro (hst | ⟨_, _, hst⟩) <;> exact hst
  · exact Or.inl

/-- C4 witness: the dropped key `B` of the example mapping is in the final
store exactly when it was in the store before (it was not). -/
theorem c4_witness :
    "B" ∈ ([("A", (2 : Int)), ("B", 3)].map Prod.fst) ∧
    ("B" ∈ ((configure appA envEmpty true none
        [Source.mapping [("A", (2 : Int)), ("B", 3)]]).1).config.map Prod.fst ↔
      "B" ∈ appA.config.map Prod.fst) :=
  ⟨by decide,
   (c4_default_whitelist_preexisting_keys appA envEmpty
     [("A", (2 : Int)), ("B", 3)] "B").2.1 (by decide)⟩

/-- C5 counterexample: with `whitelist_keys_from_mappings=True` and explicit
whitelist `["b"]`, the mapping `{"b": 1}` has key `b` in the whitelist, yet
`b` is NOT admitted (the store stays empty): Flask's `from_mapping` drops
non-`isupper` keys after the whitelist filter, so "exactly the keys of the
mapping that are in that set are admitted" fails. -/
theorem c5_counterexample :
    ((configure appEmpty envEmpty true (some ["b"]) [Source.mapping [("b", (1 : Int))]]).1).config
      = [] ∧
    "b" ∈ ([("b", (1 : Int))].map Prod.fst) ∧ "b" ∈ ["b"] ∧
    ¬ "b" ∈ (((configure appEmpty envEmpty true (some ["b"])
        [Source.mapping [("b", (1 : Int))]]).1).config.map Prod.fst) := by
  decide

/-- C5 amended: with the flag set and an explicit whitelist, the keys
admitted from the mapping are exactly its UPPERCASE keys that are in the
set, irrespective of the store's prior contents; with the flag unset no
whitelist filtering occurs and the whole mapping is merged through the
uppercase filter, even if an explicit whitelist was supplied. -/
theorem c5_whitelist_semantics (app : App α) (env : Env α) (m : List (String × α))
    (wl : List String) (k : String) :
    (k ∈ ((configure app env true (some wl) [Source.mapping m]).1).config.map Prod.fst ↔
      k ∈ app.config.map Prod.fst ∨
        (pyIsupper k = true ∧ k ∈ m.map Prod.fst ∧ k ∈ wl)) ∧
    (∀ wl' : Option (List String),
      ((configure app env false wl' [Source.mapping m]).1).config
        = config_from_mapping app.config m) := by
  constructor
  · have h1 : (configure app env true (some wl) [Source.mapping m]).1
        = _configure_from_mapping app m true (some wl) := rfl
    rw [h1, _configure_from_mapping_true_some]
    dsimp only
    rw [mem_keys_config_from_mapping, mem_keys_filter_contains]
  · intro wl'
    have h1 : (configure app env false wl' [Source.mapping m]).1
        = _configure_from_mapping app m false wl' := rfl
    rw [h1, _configure_from_mapping_false]

/-- C6: when the sources before an unsupported one all succeed, `configure`
raises the `TypeError` naming the offending value exactly when it reaches
it: the earlier sources' effects persist, the failing source contributes no
keys, and later sources are not processed; conversely the `TypeError` only
ever arises from a source that is not a string, module/class, or mapping. -/
theorem c6_unsupported_source_type_error (app : App α) (env : Env α) (wkfm : Bool)
    (wl : Option (List String)) (pre rest : List (Source α)) (r : String)
    (h : (configureLoop env wkfm wl app pre).2 = none) :
    configure app env wkfm wl (pre ++ Source.other r :: rest)
      = ((configureLoop env wkfm wl app pre).1,
          some (CfgError.typeError (typeErrorMsg r)), PyRet.none) ∧
    (∀ s m', configureItem app env wkfm wl s = .error (.typeError m') →
      ∃ r', s = Source.other r' ∧ m' = typeErrorMsg r') := by
  constructor
  · have hl : configureLoop env wkfm wl app (pre ++ Source.other r :: rest)
        = ((configureLoop env wkfm wl app pre).1,
            some (CfgError.typeError (typeErrorMsg r))) := by
      rw [configureLoop_append env wkfm wl pre (Source.other r :: rest) app h,
        configureLoop_cons]
      rfl
    show ((configureLoop env wkfm wl app (pre ++ Source.other r :: rest)).1,
      (configureLoop env wkfm wl app (pre ++ Source.other r :: rest)).2, PyRet.none) = _
    rw [hl]
  · exact fun s m' hh => configureItem_typeError app env wkfm wl s m' hh

/-- C6 witness: an unsupported source (Python `5`) after one mapping source
and before another: the first mapping is merged, the later one is not, and
the raised error's message names `5`. -/
theorem c6_witness :
    (configureLoop envEmpty false none appA [Source.mapping [("B", (4 : Int))]]).2 = none ∧
    configure appA envEmpty false none
        ([Source.mapping [("B", (4 : Int))]] ++ Source.other "5" :: [Source.mapping [("C", 6)]])
      = ((configureLoop envEmpty false none appA [Source.mapping [("B", (4 : Int))]]).1,
          some (CfgError.typeError (typeErrorMsg "5")), PyRet.none) :=
  ⟨by decide,
   (c6_unsupported_source_type_error appA envEmpty false none
     [Source.mapping [("B", (4 : Int))]] [Source.mapping [("C", 6)]] "5" (by decide)).1⟩

/-- C7: a non-empty string routed to the import-path loader is imported with
the application's import name as package anchor when it starts with `.`,
and with no anchor (absolute import) otherwise; on success the resulting
module's uppercase attributes are merged via `from_object`. -/
theorem c7_import_path_package_anchor (app : App α) (env : Env α) (s : String)
    (h : s ≠ "") :
    (s.data.head? = some '.' →
      _configure_from_module app env s
        = match env.importMod s (some app.importName) with
          | some attrs => .ok { app with config := config_from_object app.config attrs }
          | none => .error (.importError s)) ∧
    (s.data.head? ≠ some '.' →
      _configure_from_module app env s
        = match env.importMod s none with
          | some attrs => .ok { app with config := config_from_object app.config attrs }
          | none => .error (.importError s)) := by
  cases hs : s.data with
  | nil => exact absurd (String.ext (hs.trans rfl)) h
  | cons c cs =>
    have e : _configure_from_module app env s
        = match env.importMod s (if c = '.' then some app.importName else none) with
          | some attrs => Except.ok { app with config := config_from_object app.config attrs }
          | none => Except.error (CfgError.importError s) := by
      unfold _configure_from_module
      rw [hs]
    constructor
    · intro hd
      have hc : c = '.' := by simpa using hd
      rw [e, if_pos hc]
    · intro hd
      have hc : ¬ c = '.' := by simpa using hd
      rw [e, if_neg hc]

/-- C7 witness: `.settings` is imported with package anchor `myapp` (the
app's import name); `mod` is imported with no anchor. -/
theorem c7_witness :
    ((".settings" : String) ≠ "" ∧
      _configure_from_module appA envW ".settings"
        = match envW.importMod ".settings" (some appA.importName) with
          | some attrs =>
              Except.ok { appA with config := config_from_object appA.config attrs }
          | none => Except.error (CfgError.importError ".settings")) ∧
    (("mod" : String) ≠ "" ∧
      _configure_from_module appA envW "mod"
        = match envW.importMod "mod" none with
          | some attrs =>
              Except.ok { appA with config := config_from_object appA.config attrs }
          | none => Except.error (CfgError.importError "mod")) :=
  ⟨⟨by decide,
    (c7_import_path_package_anchor appA envW ".settings" (by decide)).1 (by decide)⟩,
   ⟨by decide,
    (c7_import_path_package_anchor appA envW "mod" (by decide)).2 (by decide)⟩⟩

/-- C8 counterexample: the claim says every `configure` call returns the
host application object; but the method body has no `return` statement, so
even the simplest call evaluates to `None`, not `self`. -/
theorem c8_counterexample :
    (configure appA envEmpty false none ([] : List (Source Int))).2.2 = PyRet.none ∧
    PyRet.none ≠ PyRet.self :=
  ⟨rfl, by decide⟩

/-- C8 amended: `configure` itself returns `None` (no return statement);
`configure_from_environment` (like the private loader helpers) returns the
host object, so chaining works from it but not from `configure`. -/
theorem c8_return_values (app : App α) (env : Env α) (wkfm : Bool)
    (wl : Option (List String)) (srcs : List (Source α)) :
    (configure app env wkfm wl srcs).2.2 = PyRet.none ∧
    (configure_from_environment app env wkfm wl).2 = PyRet.self :=
  ⟨rfl, rfl⟩

/-- C9: for every combination of the two whitelist options,
`configure_from_environment` produces exactly the store that `configure`'s
mapping strategy produces on the full process environment with the same
options — and that path never raises. -/
theorem c9_environment_shortcut_equivalence (app : App α) (env : Env α)
    (whitelist_keys : Bool) (wl : Option (List String)) :
    (configure_from_environment app env whitelist_keys wl).1
      = (configure app env whitelist_keys wl [Source.mapping env.environ]).1 ∧
    (configure app env whitelist_keys wl [Source.mapping env.environ]).2.1 = none :=
  ⟨rfl, rfl⟩

/-- C10: the empty string matches the string shape, has no extension, is
routed to the import-path loader, and `item[0]` raises `IndexError` there:
the store is unchanged, nothing is merged, and the error raised is the
index error, never the unsupported-source `TypeError`. -/
theorem c10_empty_string_index_error (app : App α) (env : Env α) (wkfm : Bool)
    (wl : Option (List String)) :
    configure app env wkfm wl [Source.str ""]
      = (app, some CfgError.indexError, PyRet.none) ∧
    (∀ m, CfgError.indexError ≠ CfgError.typeError m) :=
  ⟨rfl, fun m => by simp⟩

end Fleaker
